import Mathlib

/-!
Shallow embedding of `dcf.py` (StockValuationAI): a single-file DCF stock
valuation pipeline.  Machine floats are modelled as rationals (the arithmetic
in scope is exact +, -, *, /, ^); Python strings as `List Char`; Python
exceptions are modelled with `Option` where a claim depends on them; Python
dynamic typing at the one place it matters (a function that returns a float
on success and a 2-tuple on failure) is modelled with an explicit inductive.
-/

namespace DCF

/-! ### Constants (dcf.py lines 12-14) -/

def RISK_FREE_RATE : ℚ := 39 / 1000

def MARKET_RISK_PREMIUM : ℚ := 55 / 1000

def TERMINAL_GROWTH_RATE : ℚ := 3 / 100

/-! ### Numeric safety layer: `safe_float` (dcf.py lines 29-36)

A provider-returned scalar is `None`, a string, an int, or a float.  Python
`str(value)` never equals `"none"` (case-insensitively) for ints or floats,
so the `.lower() == "none"` test only matters in the `None` and string
cases.  `float(str)` is modelled by `pyFloatOfChars`: optional surrounding
whitespace, optional sign, decimal digits with at most one point. -/

inductive Value where
  | none : Value
  | str (s : List Char) : Value
  | int (n : ℤ) : Value
  | float (q : ℚ) : Value

/-- ASCII lowercase of one character, as Python `str.lower` acts on ASCII. -/
def lowerChar (c : Char) : Char :=
  if 65 ≤ c.toNat ∧ c.toNat ≤ 90 then Char.ofNat (c.toNat + 32) else c

/-- Python `s.lower()` on an ASCII string. -/
def pyLower (s : List Char) : List Char := s.map lowerChar

/-- Split a character list on a separator character (Python `str.split(sep)`). -/
def splitOnChar (sep : Char) (cs : List Char) : List (List Char) :=
  cs.foldr
    (fun c acc =>
      if c = sep then [] :: acc
      else
        match acc with
        | [] => [[c]]
        | h :: t => (c :: h) :: t)
    [[]]

def isSpaceChar (c : Char) : Bool := c = ' ' ∨ c = '\t' ∨ c = '\n' ∨ c = '\r'

/-- Strip surrounding whitespace, as Python `float()` does on strings. -/
def stripChars (cs : List Char) : List Char :=
  ((cs.dropWhile isSpaceChar).reverse.dropWhile isSpaceChar).reverse

/-- Numeric value of a digit string, most significant first. -/
def digitsVal (cs : List Char) : ℚ :=
  cs.foldl (fun a c => 10 * a + ((c.toNat - 48 : ℕ) : ℚ)) 0

/-- Model of Python `float(s)` on a string: `some q` when `s` is numeric
decimal text, `none` when `float()` raises `ValueError`. -/
def pyFloatOfChars (s : List Char) : Option ℚ :=
  let t := stripChars s
  let sign : ℚ := if t.head? = some '-' then -1 else 1
  let body := if t.head? = some '-' ∨ t.head? = some '+' then t.drop 1 else t
  match splitOnChar '.' body with
  | [w] =>
      if 0 < w.length ∧ w.all Char.isDigit then some (sign * digitsVal w)
      else Option.none
  | [w, f] =>
      if (0 < w.length ∨ 0 < f.length) ∧ w.all Char.isDigit ∧ f.all Char.isDigit then
        some (sign * (digitsVal w + digitsVal f / 10 ^ f.length))
      else Option.none
  | _ => Option.none

/-- dcf.py lines 29-36: convert to float safely, handling None and missing
fields; every conversion failure yields `default`. -/
def safe_float (value : Value) (default : ℚ) : ℚ :=
  match value with
  | Value.none => default
  | Value.str s =>
      if pyLower s = "none".toList then default
      else (pyFloatOfChars s).getD default
  | Value.int n => (n : ℚ)
  | Value.float q => q

/-! ### Fundamental metrics extractor (dcf.py lines 39-54) -/

/-- dcf.py line 47: `fcf = ocf - capex if capex < 0 else ocf - abs(capex)`. -/
def fcf (ocf capex : ℚ) : ℚ :=
  if capex < 0 then ocf - capex else ocf - |capex|

/-- dcf.py line 52: `safe_float(overview.get("SharesOutstanding", 1e9))`;
the `.get` default `1e9` applies only when the key is absent, while a
present-but-malformed value falls to `safe_float`'s default `0.0`. -/
def shares_outstanding (overview_field : Option Value) : ℚ :=
  safe_float (overview_field.getD (Value.float (10 ^ 9))) 0

/-- dcf.py line 54: `market_cap / shares_outstanding if shares_outstanding > 0 else 0.0`. -/
def current_price (market_cap shares : ℚ) : ℚ :=
  if shares > 0 then market_cap / shares else 0

/-- dcf.py line 206: `intrinsic_value = (dcf_value - net_debt) / shares_outstanding`,
an unguarded Python float division: it raises `ZeroDivisionError` when
`shares_outstanding` is zero, modelled as `none`. -/
def intrinsic_value (dcf_value net_debt shares : ℚ) : Option ℚ :=
  if shares = 0 then Option.none else some ((dcf_value - net_debt) / shares)

/-- The verdict vocabulary of the spec's ValuationResult. -/
inductive Verdict where
  | Undervalued : Verdict
  | Overvalued : Verdict
  | Equal : Verdict
deriving DecidableEq

/-- dcf.py lines 209-212: `"Undervalued" if intrinsic_value > current_price
else "Overvalued"` (a two-branch conditional). -/
def verdict (intrinsic current : ℚ) : Verdict :=
  if intrinsic > current then Verdict.Undervalued else Verdict.Overvalued

/-! ### Growth estimator (dcf.py lines 57-103) -/

/-- Inputs read by `fetch_fcf_growth_and_peg` when no exception occurs:
`PEGRatio` and `ForwardPE` (after `.get` defaults and `float()` conversion)
and the extracted `freeCashFlow` series, newest first. -/
structure FcfPegData where
  peg_ratio : ℚ
  forward_pe : ℚ
  fcf_values : List ℚ

/-- dcf.py lines 57-75; `none` models any exception inside the `try` block,
which the `except` branch turns into the tuple `(0.1, 0.07)`. -/
def fetch_fcf_growth_and_peg (fetched : Option FcfPegData) : ℚ × ℚ :=
  match fetched with
  | Option.none => (1 / 10, 7 / 100)
  | some d =>
      let vals := d.fcf_values.take 5
      let rates := (List.range (vals.length - 1)).map
        (fun i => vals.getD i 0 / vals.getD (i + 1) 0 - 1)
      let avg_fcf_growth : ℚ := if rates = [] then 1 / 10 else rates.sum / rates.length
      let eps_growth_1to5 : ℚ :=
        if d.peg_ratio > 0 then d.forward_pe / (d.peg_ratio * 100) else 7 / 100
      (avg_fcf_growth, eps_growth_1to5)

/-- One FMP analyst-estimate record; `estimatedRevenueAvg` may be absent and
`year` is the record's raw `year` field as the provider returns it. -/
structure Estimate where
  estimatedRevenueAvg : Option ℚ
  year : ℚ

/-- dcf.py lines 83-87: the loop over `estimates_data[:5]` appending
`(estimate[rev] / estimates_data[0][rev] - 1) / estimate["year"]` whenever
both records carry the revenue field; the loop starts at the base record
itself. -/
def revenue_growth_1to5 (estimates_data : List Estimate) : List ℚ :=
  match estimates_data with
  | [] => []
  | base :: _ =>
      (estimates_data.take 5).filterMap
        (fun e =>
          match e.estimatedRevenueAvg, base.estimatedRevenueAvg with
          | some r, some b => some ((r / b - 1) / e.year)
          | _, _ => Option.none)

/-- dcf.py line 88: `np.mean(revenue_growth_1to5) if revenue_growth_1to5 else 0.06`. -/
def avg_revenue_growth_1to5 (estimates_data : List Estimate) : ℚ :=
  let gs := revenue_growth_1to5 estimates_data
  if gs = [] then 6 / 100 else gs.sum / gs.length

/-- Per-estimate analyst growth as the spec words it (claim C9): annualised
by the estimate's forward horizon `years_out`, not by its calendar year. -/
def spec_per_estimate_growth (estimate_revenue base_year_revenue : ℚ) (years_out : ℕ) : ℚ :=
  (estimate_revenue / base_year_revenue - 1) / (years_out : ℚ)

/-- Python-level result of `fetch_growth_estimate`: a single float from the
success path, or the two-element tuple from the `except` branch. -/
inductive GrowthFetchValue where
  | num (q : ℚ) : GrowthFetchValue
  | pair (a b : ℚ) : GrowthFetchValue
deriving DecidableEq

/-- dcf.py lines 77-99.  `analyst` is `none` when the analyst-estimates
fetch/parse raises; `income_ok` is false when the later historical-income
fetch raises (landing in the same `except`).  The `except` branch executes
`return 0.06, 0.08` — a tuple, not a float. -/
def fetch_growth_estimate (analyst : Option (List Estimate)) (income_ok : Bool) : GrowthFetchValue :=
  match analyst with
  | Option.none => GrowthFetchValue.pair (6 / 100) (8 / 100)
  | some data =>
      if income_ok then GrowthFetchValue.num (avg_revenue_growth_1to5 data)
      else GrowthFetchValue.pair (6 / 100) (8 / 100)

/-- dcf.py line 198: `(avg_revenue_growth_1to5 + eps_growth_1to5 + avg_fcf_growth) / 3`.
Adding a Python tuple to a float raises `TypeError`, modelled as `none`. -/
def blended_growth (rev : GrowthFetchValue) (eps avg_fcf : ℚ) : Option ℚ :=
  match rev with
  | GrowthFetchValue.num q => some ((q + eps + avg_fcf) / 3)
  | GrowthFetchValue.pair _ _ => Option.none

/-- dcf.py lines 101-103: `np.linspace(growth_1to5, terminal_growth, years + 2)[1:-1]`.
`np.linspace a b n` has entries `a + k * (b - a) / (n - 1)` for `k < n`; the
slice keeps the `years` interior entries `k = 1 .. years`. -/
def interpolate_growth_rates (growth_1to5 terminal_growth : ℚ) (years : ℕ) : List ℚ :=
  (List.range years).map
    (fun (i : ℕ) =>
      growth_1to5 + ((i : ℚ) + 1) * (terminal_growth - growth_1to5) / ((years : ℚ) + 1))

/-! ### WACC engine (dcf.py lines 147-180) -/

structure WACCResult where
  wacc : ℚ
  cost_of_equity : ℚ
  after_tax_cost_of_debt : ℚ
  weight_equity : ℚ
  weight_debt : ℚ
  beta : ℚ
  tax_rate : ℚ
  market_value_equity : ℚ
  total_debt : ℚ

/-- dcf.py lines 147-180, parameterised by the fetched inputs (the source
obtains them from `fetch_market_value_equity` and
`fetch_debt_expense_taxrate`, which never fail thanks to their own
fallbacks). -/
def calculate_wacc (beta market_value_equity total_debt interest_expense taxes_paid pre_tax_income : ℚ) : WACCResult :=
  let cost_of_equity := RISK_FREE_RATE + beta * MARKET_RISK_PREMIUM
  let interest_rate := if total_debt > 0 then interest_expense / total_debt else 3 / 100
  let tax_rate := if pre_tax_income > 0 then taxes_paid / pre_tax_income else 21 / 100
  let after_tax_cost_of_debt := interest_rate * (1 - tax_rate)
  let total_value := market_value_equity + total_debt
  let weight_equity := if total_value > 0 then market_value_equity / total_value else 8 / 10
  let weight_debt := if total_value > 0 then total_debt / total_value else 2 / 10
  { wacc := weight_equity * cost_of_equity + weight_debt * after_tax_cost_of_debt
    cost_of_equity := cost_of_equity
    after_tax_cost_of_debt := after_tax_cost_of_debt
    weight_equity := weight_equity
    weight_debt := weight_debt
    beta := beta
    tax_rate := tax_rate
    market_value_equity := market_value_equity
    total_debt := total_debt }

/-! ### DCF projector (dcf.py lines 182-188) -/

/-- dcf.py line 184: `cash_flows[t-1] = fcf * np.prod([1 + g for g in growth_rates[:t]])`
for `t = 1 .. years`, indexed here by `i = t - 1`. -/
def cash_flows (fcf_base : ℚ) (growth_rates : List ℚ) (years : ℕ) : List ℚ :=
  (List.range years).map
    (fun i => fcf_base * ((growth_rates.take (i + 1)).map (fun g => 1 + g)).prod)

/-- dcf.py lines 182-188.  `none` models the only Python exceptions
reachable here: `cash_flows[-1]` on an empty list (`years = 0`) and the
zero division when `wacc = terminal_growth`; the source has no validation
branch of its own. -/
def calculate_dcf (fcf_base : ℚ) (growth_rates : List ℚ) (wacc terminal_growth : ℚ) (years : ℕ) : Option ℚ :=
  let cfs := cash_flows fcf_base growth_rates years
  match cfs.getLast? with
  | Option.none => Option.none
  | some last_cf =>
      if wacc = terminal_growth then Option.none
      else
        let terminal_value := last_cf * (1 + terminal_growth) / (wacc - terminal_growth)
        let discounted_cash_flows :=
          (List.range years).map (fun i => cfs.getD i 0 / (1 + wacc) ^ (i + 1))
        some (discounted_cash_flows.sum + terminal_value / (1 + wacc) ^ years)

/-! ### Helper lemmas -/

theorem interpolate_length (a b : ℚ) (years : ℕ) :
    (interpolate_growth_rates a b years).length = years := by
  simp [interpolate_growth_rates]

theorem interpolate_getD (a b : ℚ) (years i : ℕ) (hi : i < years) :
    (interpolate_growth_rates a b years).getD i 0 =
      a + ((i : ℚ) + 1) * (b - a) / ((years : ℚ) + 1) := by
  unfold interpolate_growth_rates
  rw [List.getD_eq_getElem?_getD, List.getElem?_map, List.getElem?_range hi]
  rfl

theorem interpolate_mem (a b : ℚ) (years : ℕ) {x : ℚ}
    (hx : x ∈ interpolate_growth_rates a b years) :
    ∃ i : ℕ, i < years ∧ x = a + ((i : ℚ) + 1) * (b - a) / ((years : ℚ) + 1) := by
  unfold interpolate_growth_rates at hx
  rcases List.mem_map.mp hx with ⟨i, hi, rfl⟩
  exact ⟨i, List.mem_range.mp hi, rfl⟩

theorem cash_flows_length (f : ℚ) (g : List ℚ) (y : ℕ) :
    (cash_flows f g y).length = y := by
  simp [cash_flows]

theorem cash_flows_getD (f : ℚ) (g : List ℚ) (y i : ℕ) (hi : i < y) :
    (cash_flows f g y).getD i 0 =
      f * ((g.take (i + 1)).map (fun gr => 1 + gr)).prod := by
  unfold cash_flows
  rw [List.getD_eq_getElem?_getD, List.getElem?_map, List.getElem?_range hi]
  rfl

theorem cash_flows_getLast (f : ℚ) (g : List ℚ) (y : ℕ) (hy : 1 ≤ y) :
    (cash_flows f g y).getLast? =
      some (f * ((g.take y).map (fun gr => 1 + gr)).prod) := by
  have hy1 : y - 1 + 1 = y := Nat.succ_pred_eq_of_pos hy
  rw [List.getLast?_eq_getElem?, cash_flows_length]
  unfold cash_flows
  rw [List.getElem?_map, List.getElem?_range (by omega), Option.map_some', hy1]

/-- Closed form of `calculate_dcf` away from its two failure points. -/
theorem calculate_dcf_closed_form (f : ℚ) (g : List ℚ) (wacc tg : ℚ) (y : ℕ)
    (hy : 1 ≤ y) (hw : wacc ≠ tg) :
    calculate_dcf f g wacc tg y =
      some (((List.range y).map
          (fun i => f * ((g.take (i + 1)).map (fun gr => 1 + gr)).prod
            / (1 + wacc) ^ (i + 1))).sum
        + f * ((g.take y).map (fun gr => 1 + gr)).prod * (1 + tg) / (wacc - tg)
            / (1 + wacc) ^ y) := by
  unfold calculate_dcf
  dsimp only
  rw [cash_flows_getLast f g y hy]
  dsimp only
  rw [if_neg hw]
  congr 2
  refine congrArg List.sum (List.map_congr_left ?_)
  intro i hi
  rw [cash_flows_getD f g y i (List.mem_range.mp hi)]

end DCF

namespace DCF

/-! ### Claim theorems -/

/-- C4: `safe_float` returns the caller's default for `None`, for any string
whose lowercasing is "none" and for non-numeric text; it returns the float
value of ints, floats and numeric strings; being a total function, no
failure escapes it. -/
theorem C4_safe_float_contract (default : ℚ) :
    safe_float Value.none default = default ∧
    (∀ s : List Char, pyLower s = "none".toList → safe_float (Value.str s) default = default) ∧
    (∀ s : List Char, pyFloatOfChars s = Option.none → safe_float (Value.str s) default = default) ∧
    (∀ (s : List Char) (q : ℚ), pyLower s ≠ "none".toList → pyFloatOfChars s = some q →
      safe_float (Value.str s) default = q) ∧
    (∀ n : ℤ, safe_float (Value.int n) default = (n : ℚ)) ∧
    (∀ q : ℚ, safe_float (Value.float q) default = q) := by
  refine ⟨rfl, fun s hs => ?_, fun s hs => ?_, fun s q hs hq => ?_, fun n => rfl, fun q => rfl⟩
  · show (if pyLower s = "none".toList then default else (pyFloatOfChars s).getD default) = default
    rw [if_pos hs]
  · by_cases hlow : pyLower s = "none".toList
    · show (if pyLower s = "none".toList then default else (pyFloatOfChars s).getD default) = default
      rw [if_pos hlow]
    · show (if pyLower s = "none".toList then default else (pyFloatOfChars s).getD default) = default
      rw [if_neg hlow, hs]
      rfl
  · show (if pyLower s = "none".toList then default else (pyFloatOfChars s).getD default) = q
    rw [if_neg hs, hq]
    rfl

/-- C4 witness: the contract instantiated at the spec's sample inputs. -/
theorem C4_safe_float_contract_witness :
    safe_float (Value.str "None".toList) 0 = 0 ∧
    safe_float (Value.str "abc".toList) 7 = 7 ∧
    safe_float (Value.str "123.45".toList) 0 = 2469 / 20 ∧
    safe_float (Value.int 123) 0 = 123 ∧
    safe_float (Value.int (-7)) 0 = -7 := by
  refine ⟨(C4_safe_float_contract 0).2.1 _ ?_,
          (C4_safe_float_contract 7).2.2.1 _ ?_,
          (C4_safe_float_contract 0).2.2.2.1 _ _ ?_ ?_,
          by rw [(C4_safe_float_contract 0).2.2.2.2.1 123]; norm_num,
          by rw [(C4_safe_float_contract 0).2.2.2.2.1 (-7)]; norm_num⟩
  · simp [pyLower, lowerChar]
  · simp [pyFloatOfChars, stripChars, isSpaceChar, splitOnChar]
  · simp [pyLower, lowerChar]
  · simp [pyFloatOfChars, stripChars, isSpaceChar, splitOnChar, digitsVal]
    norm_num

/-- C5 counterexample: with capex reported negative (the provider convention
the claim cites), free cash flow is not `ocf - |capex|`:
`fcf 1000 (-100) = 1100`, not `900`. -/
theorem C5_negative_capex_counterexample :
    fcf 1000 (-100) = 1100 ∧ fcf 1000 (-100) ≠ 1000 - |(-100 : ℚ)| := by
  constructor <;> norm_num [fcf]

/-- C5 amended: both branches of the sign-handling compute `ocf - capex`
(the conditional is a no-op), so a negative-reported capex ADDS its
magnitude to the free cash flow instead of subtracting it as a positive
outflow. -/
theorem C5_fcf_subtracts_raw_capex (ocf capex : ℚ) :
    fcf ocf capex = ocf - capex := by
  rcases lt_or_le capex 0 with h | h
  · rw [fcf, if_pos h]
  · rw [fcf, if_neg (not_lt.mpr h), abs_of_nonneg h]

/-- C3 counterexample: when intrinsic value equals current price the source
emits Overvalued, never Equal. -/
theorem C3_equal_inputs_counterexample :
    verdict 100 100 = Verdict.Overvalued ∧ verdict 100 100 ≠ Verdict.Equal := by
  have h : verdict 100 100 = Verdict.Overvalued := by norm_num [verdict]
  exact ⟨h, by rw [h]; decide⟩

/-- C3 amended: the verdict is one of exactly two values — Undervalued when
intrinsic value strictly exceeds current price and Overvalued otherwise,
ties included; Equal is never produced. -/
theorem C3_verdict_two_valued (intrinsic current : ℚ) :
    (current < intrinsic → verdict intrinsic current = Verdict.Undervalued) ∧
    (intrinsic < current → verdict intrinsic current = Verdict.Overvalued) ∧
    (intrinsic = current → verdict intrinsic current = Verdict.Overvalued) ∧
    verdict intrinsic current ≠ Verdict.Equal := by
  have hov : ∀ hle : ¬ current < intrinsic, verdict intrinsic current = Verdict.Overvalued :=
    fun hle => by rw [verdict, if_neg hle]
  refine ⟨fun h => ?_, fun h => ?_, fun h => ?_, ?_⟩
  · rw [verdict, if_pos h]
  · rw [hov (lt_asymm h)]
  · rw [hov (by rw [h]; exact lt_irrefl current)]
  · rcases le_or_lt intrinsic current with h | h
    · rw [hov (not_lt.mpr h)]; decide
    · rw [verdict, if_pos h]; decide

/-- C3 witness: the amended verdict theorem at concrete prices, including a
tie. -/
theorem C3_verdict_two_valued_witness :
    verdict 5 3 = Verdict.Undervalued ∧ verdict 3 5 = Verdict.Overvalued ∧
    verdict 4 4 = Verdict.Overvalued := by
  exact ⟨(C3_verdict_two_valued 5 3).1 (by norm_num),
         (C3_verdict_two_valued 3 5).2.1 (by norm_num),
         (C3_verdict_two_valued 4 4).2.2.1 rfl⟩

/-- C10: a present-but-malformed SharesOutstanding value (the string "None")
becomes 0 via `safe_float` (not the 1e9 absent-key default); the
current-price computation is guarded to 0, but the final intrinsic-value
division is unguarded and divides by zero (a raised `ZeroDivisionError`,
modelled as `none`). -/
theorem C10_unguarded_intrinsic_division (market_cap dcf_value net_debt : ℚ) :
    shares_outstanding (some (Value.str "None".toList)) = 0 ∧
    shares_outstanding Option.none = 10 ^ 9 ∧
    current_price market_cap (shares_outstanding (some (Value.str "None".toList))) = 0 ∧
    intrinsic_value dcf_value net_debt (shares_outstanding (some (Value.str "None".toList))) =
      Option.none := by
  have h0 : shares_outstanding (some (Value.str "None".toList)) = 0 := by
    simp [shares_outstanding, safe_float, pyLower, lowerChar]
  refine ⟨h0, ?_, ?_, ?_⟩
  · simp [shares_outstanding, safe_float]
  · rw [h0]; simp [current_price]
  · rw [h0]; simp [intrinsic_value]

/-- C6 counterexample: with coinciding endpoints (0.05, 0.05, years = 1) the
returned value equals the endpoints, so it is not strictly between them as
the claim requires of every input. -/
theorem C6_equal_endpoints_counterexample :
    interpolate_growth_rates (1/20) (1/20) 1 = [1/20] ∧
    ¬ (∀ x ∈ interpolate_growth_rates (1/20) (1/20) 1, (1/20 : ℚ) < x ∧ x < 1/20) := by
  have hl : interpolate_growth_rates (1/20) (1/20) 1 = [1/20] := by
    norm_num [interpolate_growth_rates, List.range_succ]
  refine ⟨hl, fun h => ?_⟩
  have hx := h (1/20) (by rw [hl]; exact List.mem_singleton_self _)
  exact lt_irrefl _ hx.1

/-- C6 amended: for `years ≥ 1` the interpolation returns exactly `years`
evenly spaced values, all strictly between the endpoints whenever the
endpoints differ (when they coincide every value equals that endpoint), and
strictly decreasing whenever the near-term rate exceeds the terminal
rate. -/
theorem C6_interpolate_properties (a b : ℚ) (years : ℕ) (hy : 1 ≤ years) :
    (interpolate_growth_rates a b years).length = years ∧
    (b < a → ∀ x ∈ interpolate_growth_rates a b years, b < x ∧ x < a) ∧
    (a < b → ∀ x ∈ interpolate_growth_rates a b years, a < x ∧ x < b) ∧
    (a = b → ∀ x ∈ interpolate_growth_rates a b years, x = a) ∧
    (∀ i : ℕ, i + 1 < years →
      (interpolate_growth_rates a b years).getD (i + 1) 0 -
        (interpolate_growth_rates a b years).getD i 0 = (b - a) / ((years : ℚ) + 1)) ∧
    (b < a → (interpolate_growth_rates a b years).Pairwise (fun x y => y < x)) := by
  have hy0 : (0 : ℚ) < (years : ℚ) + 1 := by positivity
  refine ⟨interpolate_length a b years, ?_, ?_, ?_, ?_, ?_⟩
  · intro hba x hx
    rcases interpolate_mem a b years hx with ⟨i, hi, rfl⟩
    have hi1 : ((i : ℚ) + 1) ≤ (years : ℚ) := by exact_mod_cast Nat.succ_le_of_lt hi
    have hc : b - a < 0 := sub_neg.mpr hba
    constructor
    · rw [← sub_lt_iff_lt_add', lt_div_iff₀ hy0]
      have h2 : 0 < a - b := sub_pos.mpr hba
      have h1 : (1 : ℚ) ≤ (years : ℚ) - i := by linarith
      nlinarith [mul_le_mul_of_nonneg_left h1 h2.le]
    · have hneg : ((i : ℚ) + 1) * (b - a) / ((years : ℚ) + 1) < 0 :=
        div_neg_of_neg_of_pos (mul_neg_of_pos_of_neg (by positivity) hc) hy0
      linarith
  · intro hab x hx
    rcases interpolate_mem a b years hx with ⟨i, hi, rfl⟩
    have hi1 : ((i : ℚ) + 1) ≤ (years : ℚ) := by exact_mod_cast Nat.succ_le_of_lt hi
    have hc : 0 < b - a := sub_pos.mpr hab
    constructor
    · have hpos : 0 < ((i : ℚ) + 1) * (b - a) / ((years : ℚ) + 1) :=
        div_pos (mul_pos (by positivity) hc) hy0
      linarith
    · rw [← lt_sub_iff_add_lt', div_lt_iff₀ hy0]
      have h1 : (1 : ℚ) ≤ (years : ℚ) - i := by linarith
      nlinarith [mul_le_mul_of_nonneg_left h1 hc.le]
  · intro hab x hx
    rcases interpolate_mem a b years hx with ⟨i, hi, rfl⟩
    rw [← hab]
    simp
  · intro i hi
    rw [interpolate_getD a b years (i + 1) hi, interpolate_getD a b years i (by omega)]
    have h0 : ((years : ℚ) + 1) ≠ 0 := ne_of_gt hy0
    push_cast
    field_simp
    ring
  · intro hba
    unfold interpolate_growth_rates
    refine List.Pairwise.map _ ?_ (List.pairwise_lt_range years)
    intro i j hij
    dsimp only
    have hd : (b - a) / ((years : ℚ) + 1) < 0 :=
      div_neg_of_neg_of_pos (sub_neg.mpr hba) hy0
    have hij1 : ((i : ℚ) + 1) < ((j : ℚ) + 1) := by
      have : (i : ℚ) < (j : ℚ) := by exact_mod_cast hij
      linarith
    have hmul := mul_lt_mul_of_neg_right hij1 hd
    calc a + ((j : ℚ) + 1) * (b - a) / ((years : ℚ) + 1)
        = a + ((j : ℚ) + 1) * ((b - a) / ((years : ℚ) + 1)) := by rw [mul_div_assoc]
      _ < a + ((i : ℚ) + 1) * ((b - a) / ((years : ℚ) + 1)) := by linarith
      _ = a + ((i : ℚ) + 1) * (b - a) / ((years : ℚ) + 1) := by rw [mul_div_assoc]

/-- C6 witness: the amended theorem at the spec's concrete instance
(0.10, 0.03, years = 5), with the returned list evaluated explicitly. -/
theorem C6_interpolate_witness :
    (interpolate_growth_rates (1/10) (3/100) 5).length = 5 ∧
    interpolate_growth_rates (1/10) (3/100) 5 = [53/600, 23/300, 13/200, 4/75, 1/24] := by
  refine ⟨(C6_interpolate_properties (1/10) (3/100) 5 (by norm_num)).1, ?_⟩
  norm_num [interpolate_growth_rates, List.range_succ]

/-- A convex combination with non-negative weights summing to one lies
between the smaller and the larger of its two arguments. -/
theorem convex_comb_bounds (we wd x y : ℚ) (hwe : 0 ≤ we) (hwd : 0 ≤ wd)
    (hsum : we + wd = 1) :
    min x y ≤ we * x + wd * y ∧ we * x + wd * y ≤ max x y := by
  constructor
  · calc min x y = (we + wd) * min x y := by rw [hsum, one_mul]
      _ = we * min x y + wd * min x y := by ring
      _ ≤ we * x + wd * y :=
          add_le_add (mul_le_mul_of_nonneg_left (min_le_left x y) hwe)
            (mul_le_mul_of_nonneg_left (min_le_right x y) hwd)
  · calc we * x + wd * y
        ≤ we * max x y + wd * max x y :=
          add_le_add (mul_le_mul_of_nonneg_left (le_max_left x y) hwe)
            (mul_le_mul_of_nonneg_left (le_max_right x y) hwd)
      _ = (we + wd) * max x y := by ring
      _ = max x y := by rw [hsum, one_mul]

/-- C7: the capital-structure weights sum to one, both when equity plus debt
is positive and under the 0.8/0.2 fallback; the returned wacc is exactly
the weighted sum of the two cost components and (equity and debt being
non-negative, as the data model requires) lies between the smaller and the
larger of them; the computation is a total function. -/
theorem C7_wacc_invariants (beta mve debt interest taxes pti : ℚ)
    (hmve : 0 ≤ mve) (hdebt : 0 ≤ debt) :
    (calculate_wacc beta mve debt interest taxes pti).weight_equity +
        (calculate_wacc beta mve debt interest taxes pti).weight_debt = 1 ∧
    (calculate_wacc beta mve debt interest taxes pti).wacc =
      (calculate_wacc beta mve debt interest taxes pti).weight_equity *
          (calculate_wacc beta mve debt interest taxes pti).cost_of_equity +
        (calculate_wacc beta mve debt interest taxes pti).weight_debt *
          (calculate_wacc beta mve debt interest taxes pti).after_tax_cost_of_debt ∧
    min (calculate_wacc beta mve debt interest taxes pti).cost_of_equity
        (calculate_wacc beta mve debt interest taxes pti).after_tax_cost_of_debt ≤
      (calculate_wacc beta mve debt interest taxes pti).wacc ∧
    (calculate_wacc beta mve debt interest taxes pti).wacc ≤
      max (calculate_wacc beta mve debt interest taxes pti).cost_of_equity
        (calculate_wacc beta mve debt interest taxes pti).after_tax_cost_of_debt := by
  have hsum : (calculate_wacc beta mve debt interest taxes pti).weight_equity +
      (calculate_wacc beta mve debt interest taxes pti).weight_debt = 1 := by
    dsimp only [calculate_wacc]
    by_cases h : mve + debt > 0
    · rw [if_pos h, if_pos h, div_add_div_same, div_self (ne_of_gt h)]
    · rw [if_neg h, if_neg h]; norm_num
  have hwe0 : 0 ≤ (calculate_wacc beta mve debt interest taxes pti).weight_equity := by
    dsimp only [calculate_wacc]
    by_cases h : mve + debt > 0
    · rw [if_pos h]; exact div_nonneg hmve h.le
    · rw [if_neg h]; norm_num
  have hwd0 : 0 ≤ (calculate_wacc beta mve debt interest taxes pti).weight_debt := by
    dsimp only [calculate_wacc]
    by_cases h : mve + debt > 0
    · rw [if_pos h]; exact div_nonneg hdebt h.le
    · rw [if_neg h]; norm_num
  have hb := convex_comb_bounds _ _
    (calculate_wacc beta mve debt interest taxes pti).cost_of_equity
    (calculate_wacc beta mve debt interest taxes pti).after_tax_cost_of_debt hwe0 hwd0 hsum
  exact ⟨hsum, by dsimp only [calculate_wacc], hb.1, hb.2⟩

/-- C8: each projected year compounds the first t growth rates from year 1;
the returned value is the sum of every discounted yearly cash flow plus the
discounted Gordon terminal value built from the final year's cash flow. -/
theorem C8_dcf_projector_formulas (fcf_base : ℚ) (growth_rates : List ℚ)
    (wacc terminal_growth : ℚ) (years : ℕ) (hlen : growth_rates.length = years)
    (hy : 1 ≤ years) (hw : terminal_growth < wacc) :
    (∀ t : ℕ, 1 ≤ t → t ≤ years →
      (cash_flows fcf_base growth_rates years).getD (t - 1) 0 =
        fcf_base * ((growth_rates.take t).map (fun g => 1 + g)).prod) ∧
    calculate_dcf fcf_base growth_rates wacc terminal_growth years =
      some (((List.range years).map
          (fun i => fcf_base * ((growth_rates.take (i + 1)).map (fun g => 1 + g)).prod
            / (1 + wacc) ^ (i + 1))).sum
        + fcf_base * ((growth_rates.take years).map (fun g => 1 + g)).prod
            * (1 + terminal_growth) / (wacc - terminal_growth) / (1 + wacc) ^ years) := by
  constructor
  · intro t ht1 hty
    have h1 : t - 1 + 1 = t := Nat.succ_pred_eq_of_pos ht1
    rw [cash_flows_getD fcf_base growth_rates years (t - 1) (by omega), h1]
  · exact calculate_dcf_closed_form fcf_base growth_rates wacc terminal_growth years hy
      (ne_of_gt hw)

/-- C8 witness: the projector at the spec's reference instance — base 100,
ten years of 5% growth, wacc 8%, terminal growth 3% — yields year-1 cash
flow 105, year-10 cash flow 100·(21/20)¹⁰ and the exact discounted total
(all equalities exact over ℚ, hence well within 1e-6 relative error). -/
theorem C8_dcf_projector_witness :
    (cash_flows 100 (List.replicate 10 (1/20)) 10).getD 0 0 = 105 ∧
    (cash_flows 100 (List.replicate 10 (1/20)) 10).getD 9 0 = 16679880978201 / 102400000000 ∧
    calculate_dcf 100 (List.replicate 10 (1/20)) (2/25) (3/100) 10 =
      some (30639744274853875 / 12694994583552) := by
  have h := C8_dcf_projector_formulas 100 (List.replicate 10 (1/20)) (2/25) (3/100) 10
    (by simp) (by norm_num) (by norm_num)
  have e1 := h.1 1 (by norm_num) (by norm_num)
  have e10 := h.1 10 (by norm_num) (by norm_num)
  norm_num [List.take_replicate, List.map_replicate, List.prod_replicate] at e1 e10
  refine ⟨e1, e10, ?_⟩
  rw [h.2, show List.range 10 = [0, 1, 2, 3, 4, 5, 6, 7, 8, 9] from rfl]
  norm_num [List.take_replicate, List.map_replicate, List.prod_replicate]

/-- C1 (code bug): with wacc 2% below terminal growth 3%, the projector has
no validation branch and no InvalidModelInput report; it silently computes
and returns a finite numeric enterprise value — a negative one — here for
base 100 and ten years of 5% growth. -/
theorem C1_invalid_input_returns_numeric :
    calculate_dcf 100 (List.replicate 10 (1/20)) (1/50) (3/100) 10 =
      some (-95527368173218625 / 7589624095808) ∧
    (-95527368173218625 / 7589624095808 : ℚ) < 0 := by
  refine ⟨?_, by norm_num⟩
  rw [calculate_dcf_closed_form 100 (List.replicate 10 (1/20)) (1/50) (3/100) 10
    (by norm_num) (by norm_num),
    show List.range 10 = [0, 1, 2, 3, 4, 5, 6, 7, 8, 9] from rfl]
  norm_num [List.take_replicate, List.map_replicate, List.prod_replicate]

/-- C2 (code bug): the FCF and PEG signals do fall back jointly to
(0.10, 0.07), but a failed analyst fetch makes `fetch_growth_estimate`
return the two-element tuple (0.06, 0.08) instead of the single constant
0.06; blending that tuple with the two other floats is a Python
`TypeError`, so the blend fails outright instead of never failing. -/
theorem C2_blend_fails_on_analyst_fetch_failure :
    fetch_fcf_growth_and_peg Option.none = (1/10, 7/100) ∧
    fetch_growth_estimate Option.none true = GrowthFetchValue.pair (6/100) (8/100) ∧
    (∀ q : ℚ, fetch_growth_estimate Option.none true ≠ GrowthFetchValue.num q) ∧
    blended_growth (fetch_growth_estimate Option.none true) (7/100) (1/10) = Option.none := by
  exact ⟨rfl, rfl, fun q h => GrowthFetchValue.noConfusion h, rfl⟩

/-- C9 (code bug): the per-estimate divisor is the raw calendar `year`
field, and the base record itself is included in the average: with base
revenue 100 (year 2025) and one forward estimate 110 (year 2026, i.e. one
year out) the code's signal is 1/40520 — not the spec's
(110/100 - 1)/1 = 1/10; the empty-list fallback 0.06 does hold. -/
theorem C9_analyst_growth_divides_by_calendar_year :
    revenue_growth_1to5 [⟨some 100, 2025⟩, ⟨some 110, 2026⟩] = [0, 1/20260] ∧
    avg_revenue_growth_1to5 [⟨some 100, 2025⟩, ⟨some 110, 2026⟩] = 1/40520 ∧
    spec_per_estimate_growth 110 100 1 = 1/10 ∧
    (1/40520 : ℚ) ≠ 1/10 ∧
    avg_revenue_growth_1to5 [] = 6/100 := by
  have h1 : revenue_growth_1to5 [⟨some 100, 2025⟩, ⟨some 110, 2026⟩] = [0, 1/20260] := by
    simp only [revenue_growth_1to5]
    norm_num [List.take, List.filterMap_cons]
  refine ⟨h1, ?_, ?_, by norm_num, rfl⟩
  · simp only [avg_revenue_growth_1to5, h1]
    rw [if_neg (by simp)]
    norm_num
  · norm_num [spec_per_estimate_growth]

/-- C7 witness: the invariants at beta 1.2, equity 160, debt 40, interest
expense 2, taxes 21, pre-tax income 100. -/
theorem C7_wacc_witness :
    (calculate_wacc (6/5) 160 40 2 21 100).weight_equity +
        (calculate_wacc (6/5) 160 40 2 21 100).weight_debt = 1 ∧
    min (calculate_wacc (6/5) 160 40 2 21 100).cost_of_equity
        (calculate_wacc (6/5) 160 40 2 21 100).after_tax_cost_of_debt ≤
      (calculate_wacc (6/5) 160 40 2 21 100).wacc := by
  have h := C7_wacc_invariants (6/5) 160 40 2 21 100 (by norm_num) (by norm_num)
  exact ⟨h.1, h.2.2.1⟩

end DCF
